import Mathlib

/-!
Verification of the fq-compressor benchmark framework
(`benchmark/benchmark.py`, `benchmark/compiler_benchmark.py`,
`scripts/generate_benchmark_report.py`) against its specification.

Shallow embedding conventions: byte sizes and thread counts are `Nat`,
measured times and derived metrics are `Rat` (the Python code uses floats,
but no claim here depends on rounding), shell/file-system interaction is
abstracted into explicit outcome records supplied as parameters (the code
under test only inspects the returned tuples / file sizes, which is what
the records carry).
-/

/-- One measured execution, mirroring the dataclass `BenchmarkResult` of
`benchmark/benchmark.py` (fields in source order). -/
structure RunResult where
  tool : String
  operation : String
  input_size : Nat
  output_size : Nat
  elapsed_seconds : Rat
  threads : Nat
  success : Bool
  error : Option String
deriving DecidableEq, Repr

namespace RunResult

/-- `BenchmarkResult.ratio`: compressed/original, 0 when `input_size == 0`. -/
def ratio (r : RunResult) : Rat :=
  if r.input_size = 0 then 0 else (r.output_size : Rat) / (r.input_size : Rat)

/-- `BenchmarkResult.speed_mb_s`: `(input_size/1024/1024)/elapsed_seconds`,
0 when `elapsed_seconds == 0`. -/
def speed_mb_s (r : RunResult) : Rat :=
  if r.elapsed_seconds = 0 then 0
  else ((r.input_size : Rat) / 1024 / 1024) / r.elapsed_seconds

/-- `BenchmarkResult.bits_per_base`: `estimated_bases = input_size * 0.5;
(output_size * 8) / estimated_bases`, 0 when `input_size == 0`.  The 0.5
payload fraction is hardcoded in the source property. -/
def bits_per_base (r : RunResult) : Rat :=
  if r.input_size = 0 then 0
  else ((r.output_size : Rat) * 8) / ((r.input_size : Rat) * (1/2))

end RunResult

/-- Tool configuration record, mirroring the dataclass `ToolConfig`. -/
structure ToolConfig where
  name : String
  compress : String
  decompress : String
  extension : String
  category : String
  description : String
  version_cmd : String := ""
  version : String := "unknown"
deriving DecidableEq, Repr

/-- Outcome of one `subprocess.run` call as observed by
`BenchmarkRunner._run_command`: either the process completed (with measured
wall time, exit status and diagnostic stream), or the timeout fired
(`subprocess.TimeoutExpired`), or some other exception was raised. -/
inductive ProcOutcome where
  | completed (elapsed : Rat) (returncode : Int) (stderr : String)
  | timedOut
  | failed (cause : String)
deriving DecidableEq, Repr

/-- `BenchmarkRunner._run_command(cmd, timeout)`: returns
`(elapsed_time, success, error)`. -/
def run_command (timeout : Rat) : ProcOutcome → Rat × Bool × String
  | .completed elapsed returncode stderr =>
      if returncode ≠ 0 then (elapsed, false, stderr.take 200)
      else (elapsed, true, "")
  | .timedOut => (timeout, false, "Timeout")
  | .failed cause => (0, false, cause)

/-- The file-system / subprocess interactions observed by one call of
`BenchmarkRunner.benchmark_tool`: the original input file's size, the outcome
of the compress subprocess, whether the compressed artifact exists afterwards
and its size, the outcome of the decompress subprocess, and whether the
decompressed file exists afterwards and its size.  (`_get_file_size` returns
0 for a missing file; the `Exists` flags model the `.exists()` checks.) -/
structure TrialEnv where
  input_size : Nat
  compressProc : ProcOutcome
  compressedExists : Bool
  compressedSize : Nat
  decompressProc : ProcOutcome
  decompressedExists : Bool
  decompressedSize : Nat
deriving DecidableEq, Repr

/-- `BenchmarkRunner.benchmark_tool(tool_id, input_file, threads, work_dir,
verify)`.  `tools` is the registry mapping (`self.tools`); command-template
substitution only builds the shell strings, so the subprocess outcomes are
taken from `env`.  Mirrors the source line by line: unknown tool → `[]`;
compress result recorded with `output_size = 0` on failure; decompression
run iff compression succeeded and the artifact exists; the integrity check
overwrites `error` of the last (decompress) result. -/
def benchmark_tool (tools : List (String × ToolConfig)) (tool_id : String)
    (env : TrialEnv) (threads : Nat) (verify : Bool) : List RunResult :=
  match tools.lookup tool_id with
  | none => []
  | some _tool =>
    let res := run_command 3600 env.compressProc
    let success := res.2.1
    let compressed_size := if success then env.compressedSize else 0
    let r1 : RunResult :=
      { tool := tool_id, operation := "compress", input_size := env.input_size,
        output_size := compressed_size, elapsed_seconds := res.1,
        threads := threads, success := success,
        error := if success then none else some res.2.2 }
    if success && env.compressedExists then
      let res2 := run_command 3600 env.decompressProc
      let success2 := res2.2.1
      let decompressed_size := if success2 then env.decompressedSize else 0
      let r2 : RunResult :=
        { tool := tool_id, operation := "decompress", input_size := compressed_size,
          output_size := decompressed_size, elapsed_seconds := res2.1,
          threads := threads, success := success2,
          error := if success2 then none else some res2.2.2 }
      let r2 :=
        if verify && success2 && env.decompressedExists
            && !(decompressed_size == env.input_size) then
          { r2 with error := some ("Size mismatch: " ++ toString decompressed_size
              ++ " vs " ++ toString env.input_size) }
        else r2
      [r1, r2]
    else [r1]

/-- One benchmark record of `benchmark/compiler_benchmark.py`
(dataclass `CompilerBenchmarkResult`). -/
structure CompilerBenchmarkResult where
  compiler : String
  operation : String
  input_size : Nat
  output_size : Nat
  elapsed_seconds : Rat
  threads : Nat
  success : Bool
  error : Option String
  peak_memory_mb : Rat := 0
deriving DecidableEq, Repr

namespace CompilerBenchmarkResult

/-- `CompilerBenchmarkResult.ratio`. -/
def ratio (r : CompilerBenchmarkResult) : Rat :=
  if r.input_size = 0 then 0 else (r.output_size : Rat) / (r.input_size : Rat)

/-- `CompilerBenchmarkResult.speed_mb_s`. -/
def speed_mb_s (r : CompilerBenchmarkResult) : Rat :=
  if r.elapsed_seconds = 0 then 0
  else ((r.input_size : Rat) / 1024 / 1024) / r.elapsed_seconds

end CompilerBenchmarkResult

/-- Outcome of `CompilerBenchmark._run_timed_command`'s subprocess call.  The
peak-memory figure of a completed run abstracts the parse of
`/usr/bin/time -v` output (already converted KB → MB); the timeout and
exception paths return the initial `peak_memory = 0.0`. -/
inductive TimedOutcome where
  | completed (elapsed : Rat) (returncode : Int) (stderr : String) (peakMemoryMB : Rat)
  | timedOut
  | failed (cause : String)
deriving DecidableEq, Repr

/-- `CompilerBenchmark._run_timed_command(cmd, timeout)`: returns
`(elapsed, success, error, peak_memory_mb)`. -/
def run_timed_command (timeout : Rat) : TimedOutcome → Rat × Bool × String × Rat
  | .completed elapsed returncode stderr peak =>
      if returncode ≠ 0 then (elapsed, false, stderr.take 200, peak)
      else (elapsed, true, "", peak)
  | .timedOut => (timeout, false, "Timeout", 0)
  | .failed cause => (0, false, cause, 0)

/-- Interactions observed by one call of `CompilerBenchmark.benchmark_binary`
(after `_decompress_if_needed` has resolved the actual input file). -/
structure BinaryEnv where
  input_size : Nat
  compressProc : TimedOutcome
  compressedExists : Bool
  compressedSize : Nat
  decompressProc : TimedOutcome
  decompressedExists : Bool
  decompressedSize : Nat
deriving DecidableEq, Repr

/-- `CompilerBenchmark.benchmark_binary(compiler, binary, input_file, threads,
work_dir)`: compress, then decompress iff compression succeeded and the
artifact exists; no integrity check in this variant. -/
def benchmark_binary (compiler : String) (env : BinaryEnv) (threads : Nat) :
    List CompilerBenchmarkResult :=
  let res := run_timed_command 3600 env.compressProc
  let success := res.2.1
  let compressed_size := if success then env.compressedSize else 0
  let r1 : CompilerBenchmarkResult :=
    { compiler := compiler, operation := "compress", input_size := env.input_size,
      output_size := compressed_size, elapsed_seconds := res.1,
      threads := threads, success := success,
      error := if success then none else some res.2.2.1,
      peak_memory_mb := res.2.2.2 }
  if success && env.compressedExists then
    let res2 := run_timed_command 3600 env.decompressProc
    let success2 := res2.2.1
    let decompressed_size := if success2 then env.decompressedSize else 0
    let r2 : CompilerBenchmarkResult :=
      { compiler := compiler, operation := "decompress", input_size := compressed_size,
        output_size := decompressed_size, elapsed_seconds := res2.1,
        threads := threads, success := success2,
        error := if success2 then none else some res2.2.2.1,
        peak_memory_mb := res2.2.2.2 }
    [r1, r2]
  else [r1]

/-! ## Best-of-N reduction (`BenchmarkRunner.run_benchmark`, lines 354–386)

For one `(tool, threads)` configuration the source keeps two running bests
(`best_compress`, `best_decompress`), scans every result of every one of the
`runs` trials, and replaces a best only on strictly smaller
`elapsed_seconds`; afterwards each best that is not `None` is appended to
`suite.results`. -/

/-- One step of the running-best update: replace the candidate only when the
new result's elapsed time is strictly smaller (`r.elapsed_seconds <
best.elapsed_seconds`), so that ties keep the first-seen result. -/
def bestUpd (best : Option RunResult) (r : RunResult) : Option RunResult :=
  match best with
  | none => some r
  | some b => if r.elapsed_seconds < b.elapsed_seconds then some r else some b

/-- Left fold of `bestUpd` over a result list, starting from `acc`. -/
def bestFold (acc : Option RunResult) : List RunResult → Option RunResult
  | [] => acc
  | r :: rs => bestFold (bestUpd acc r) rs

/-- The two-accumulator pass of the source: results whose `operation` equals
`"compress"` update `best_compress`, every other result updates
`best_decompress`. -/
def bestPairAux (bc bd : Option RunResult) :
    List RunResult → Option RunResult × Option RunResult
  | [] => (bc, bd)
  | r :: rs =>
    if r.operation == "compress" then bestPairAux (bestUpd bc r) bd rs
    else bestPairAux bc (bestUpd bd r) rs

/-- Best-of-N reduction over the `runs` trials of one `(tool, threads)`
configuration; `trials` lists, per trial, the result list returned by
`benchmark_tool`. -/
def bestPair (trials : List (List RunResult)) : Option RunResult × Option RunResult :=
  bestPairAux none none trials.flatten

/-- What one `(tool, threads)` configuration contributes to `suite.results`:
the best compress result if present, then the best decompress result if
present. -/
def configResults (trials : List (List RunResult)) : List RunResult :=
  (bestPair trials).1.toList ++ (bestPair trials).2.toList

/-- `suite.results` across the whole sweep: the per-configuration
contributions concatenated in `(tool, threads)` traversal order. -/
def sweepResults (configs : List (List (List RunResult))) : List RunResult :=
  (configs.map configResults).flatten

/-- Keep `a`, the earlier candidate, unless the later candidate is strictly
faster (`b.elapsed_seconds < a.elapsed_seconds`). -/
def pickMin (a : RunResult) : Option RunResult → RunResult
  | none => a
  | some b => if b.elapsed_seconds < a.elapsed_seconds then b else a

/-- Reference reduction following the spec's words ("the RunResult with
minimum elapsed time, ties broken by first-seen"): the earliest element of
the list attaining the minimum `elapsed_seconds`, `none` on the empty
list.  Used to characterise the source's fold. -/
def specFirstMinByElapsed : List RunResult → Option RunResult
  | [] => none
  | r :: rs => some (pickMin r (specFirstMinByElapsed rs))

/-! ## Reference metric definitions (spec §4.2 MetricDeriver)

Second definitions written from the spec's words, for comparison with the
derived properties of `RunResult`. -/

/-- Spec: `ratio(input, output) = output/input`, defined as 0 when
`input = 0`. -/
def specRatio (input output : Nat) : Rat :=
  if input = 0 then 0 else (output : Rat) / (input : Rat)

/-- Spec: `throughputMBps(input, elapsed) = (input/1MB)/elapsed` with
`1MB = 1048576` bytes, defined as 0 when `elapsed = 0`. -/
def specThroughputMBps (input : Nat) (elapsed : Rat) : Rat :=
  if elapsed = 0 then 0 else ((input : Rat) / 1048576) / elapsed

/-- Spec: `bitsPerUnit(input, output, unitFraction) =
(output*8) / (input*unitFraction)`, with `unitFraction` supplied by the
caller. -/
def specBitsPerUnit (input output : Nat) (unitFraction : Rat) : Rat :=
  ((output : Rat) * 8) / ((input : Rat) * unitFraction)

/-! ## Statistics layer (`scripts/generate_benchmark_report.py`)

One JSON result row consumed by the report generator, and the statistics
computed by `calculate_statistics`.  The standard-deviation entries of the
Python stats dict are omitted: no claim mentions them and their value
(`statistics.stdev`) is an irrational square root. -/

/-- One row of `data['results']` as read by
`scripts/generate_benchmark_report.py`. -/
structure ReportRecord where
  compiler : String
  test : String
  iteration : Nat
  input_size : Nat
  output_size : Nat
  elapsed_seconds : Rat
  throughput_mbps : Rat
  compression_ratio : Rat
deriving DecidableEq, Repr

/-- `statistics.mean` on a rational sample list. -/
def listMean (l : List Rat) : Rat := l.sum / (l.length : Rat)

/-- Python `min` over a nonempty list (0 placeholder on `[]`, unreachable in
the source because `calculate_statistics` returns early on an empty
filter). -/
def listMin : List Rat → Rat
  | [] => 0
  | x :: xs => xs.foldl min x

/-- Python `max` over a nonempty list (same convention as `listMin`). -/
def listMax : List Rat → Rat
  | [] => 0
  | x :: xs => xs.foldl max x

/-- The stats mapping built by `calculate_statistics` (minus the stdev
entries, see above); `compression_ratio_mean` is present only for
`test == "compression"`. -/
structure ReportStats where
  count : Nat
  throughput_mean : Rat
  throughput_min : Rat
  throughput_max : Rat
  elapsed_mean : Rat
  compression_ratio_mean : Option Rat
deriving DecidableEq, Repr

/-- `calculate_statistics(results, compiler, test_type)`: `None` when no row
matches the `(compiler, test)` pair, otherwise the aggregate over the
matching rows. -/
def calculate_statistics (results : List ReportRecord) (compiler test_type : String) :
    Option ReportStats :=
  let filtered := results.filter fun r => r.compiler == compiler && r.test == test_type
  match filtered with
  | [] => none
  | _ :: _ =>
    some
      { count := filtered.length
        throughput_mean := listMean (filtered.map ReportRecord.throughput_mbps)
        throughput_min := listMin (filtered.map ReportRecord.throughput_mbps)
        throughput_max := listMax (filtered.map ReportRecord.throughput_mbps)
        elapsed_mean := listMean (filtered.map ReportRecord.elapsed_seconds)
        compression_ratio_mean :=
          if test_type == "compression" then
            some (listMean (filtered.map ReportRecord.compression_ratio))
          else none }

/-- The "Compiler Comparison" speedup of `generate_report` (lines 139–150,
reached when exactly two compilers are present): guarded by
`if gcc_comp and clang_comp:` — i.e. only by presence of the two summaries —
and then an unconditional division of the mean throughputs. -/
def comparisonSpeedup (results : List ReportRecord) : Option Rat :=
  match calculate_statistics results "gcc" "compression",
        calculate_statistics results "clang" "compression" with
  | some gcc_comp, some clang_comp =>
      some (clang_comp.throughput_mean / gcc_comp.throughput_mean)
  | _, _ => none

/-! ## Report row ordering (`BenchmarkRunner.generate_report`,
`CompilerBenchmark.generate_report`)

Python's `sorted` orders tuples lexicographically, comparing strings by code
point; we model that order directly on the character data and implement a
stable insertion sort (stability matches CPython's Timsort on the
properties proved here). -/

/-- Code-point lexicographic strict order on character lists — Python's `<`
on strings (strings compare by Unicode code point, here `Char.val.toNat`). -/
def charListLt : List Char → List Char → Bool
  | [], [] => false
  | [], _ :: _ => true
  | _ :: _, [] => false
  | a :: as, b :: bs =>
    if a.val.toNat < b.val.toNat then true
    else if b.val.toNat < a.val.toNat then false
    else charListLt as bs

/-- Python `a < b` on strings. -/
def strLtB (a b : String) : Bool := charListLt a.data b.data

/-- Python `(s1, n1) < (s2, n2)` on (string, int) sort keys. -/
def keyLt (a b : String × Nat) : Bool :=
  strLtB a.1 b.1 || (a.1 == b.1 && decide (a.2 < b.2))

/-- Python `(s1, n1) <= (s2, n2)` on (string, int) sort keys. -/
def keyLe (a b : String × Nat) : Bool :=
  strLtB a.1 b.1 || (a.1 == b.1 && decide (a.2 ≤ b.2))

/-- Stable insertion of an element into a list sorted by `key`: the new
element goes before the first position whose key is not strictly below its
own, so equal keys keep their original relative order. -/
def insertByKey {α : Type} (key : α → String × Nat) (a : α) : List α → List α
  | [] => [a]
  | x :: xs => if keyLt (key x) (key a) then x :: insertByKey key a xs else a :: x :: xs

/-- Stable sort by `key`, modelling Python's `sorted(..., key=...)`. -/
def sortByKey {α : Type} (key : α → String × Nat) : List α → List α
  | [] => []
  | a :: as => insertByKey key a (sortByKey key as)

/-- The grouping step of `BenchmarkRunner.generate_report`: the keys of the
`compress_results` dict, i.e. the `(r.tool, r.threads)` pairs of successful
compress results, in first-insertion order without duplicates (later
assignments overwrite the value but keep the key's position). -/
def compressKeys (results : List RunResult) : List (String × Nat) :=
  ((results.filter fun r => r.operation == "compress" && r.success).map
    fun r => (r.tool, r.threads)).dedup

/-- The row keys of the Markdown compression table, in emission order:
`sorted(compress_results.keys(), key=lambda x: (x[0], x[1]))`.  The first
component is the tool **id** (`r.tool`), which is also the sort key used by
the source. -/
def reportRowKeys (results : List RunResult) : List (String × Nat) :=
  sortByKey id (compressKeys results)

/-- The `(display name, threads)` pair shown in each emitted row: the source
renders `tool.name` where `tool = self.tools.get(tool_id)` (the lookup
always succeeds for tools that produced results; a missing id is rendered
here as `""` where the source would raise `AttributeError`). -/
def reportRowDisplay (tools : List (String × ToolConfig)) (results : List RunResult) :
    List (String × Nat) :=
  (reportRowKeys results).map fun k =>
    (((tools.lookup k.1).map ToolConfig.name).getD "", k.2)

/-- The sorted successful compress rows of
`CompilerBenchmark.generate_report`:
`sorted(compress_results, key=lambda x: (x.compiler, x.threads))` — here the
sort key **is** the displayed compiler name. -/
def compilerCompressRows (results : List CompilerBenchmarkResult) :
    List CompilerBenchmarkResult :=
  sortByKey (fun r => (r.compiler, r.threads))
    (results.filter fun r => r.operation == "compress" && r.success)

/-! ## JSON export (`BenchmarkRunner.export_json`)

A small JSON value model; `json.dump` followed by `json.load` is the
identity on this tree (Python round-trips the exact string/int/float/bool/
null values), so serialisation is modelled as producing the tree itself. -/

/-- JSON values. -/
inductive Json where
  | null
  | bool (b : Bool)
  | num (q : Rat)
  | str (s : String)
  | arr (elems : List Json)
  | obj (fields : List (String × Json))

/-- Field access on a parsed JSON object (`data[key]`). -/
def Json.getField (j : Json) (key : String) : Option Json :=
  match j with
  | .obj fields => fields.lookup key
  | _ => none

/-- `asdict(r)` for a `BenchmarkResult`, followed by `json.dump`: one JSON
object per result, fields in dataclass order. -/
def runResultToJson (r : RunResult) : Json :=
  .obj
    [("tool", .str r.tool),
     ("operation", .str r.operation),
     ("input_size", .num (r.input_size : Rat)),
     ("output_size", .num (r.output_size : Rat)),
     ("elapsed_seconds", .num r.elapsed_seconds),
     ("threads", .num (r.threads : Rat)),
     ("success", .bool r.success),
     ("error", match r.error with | none => .null | some e => .str e)]

/-- Reading one reparsed result object back into a `RunResult`: each defined
field is looked up and checked for its expected JSON type (byte sizes and
thread counts must be nonnegative integers). -/
def runResultOfJson (j : Json) : Option RunResult := do
  let .str tool ← j.getField "tool" | none
  let .str operation ← j.getField "operation" | none
  let .num input ← j.getField "input_size" | none
  let .num output ← j.getField "output_size" | none
  let .num elapsed ← j.getField "elapsed_seconds" | none
  let .num threads ← j.getField "threads" | none
  let .bool success ← j.getField "success" | none
  let error ← match j.getField "error" with
    | some .null => some none
    | some (.str e) => some (some e)
    | _ => none
  if input.den = 1 ∧ 0 ≤ input.num ∧ output.den = 1 ∧ 0 ≤ output.num
      ∧ threads.den = 1 ∧ 0 ≤ threads.num then
    some
      { tool := tool, operation := operation,
        input_size := input.num.toNat, output_size := output.num.toNat,
        elapsed_seconds := elapsed, threads := threads.num.toNat,
        success := success, error := error }
  else none

/-- The benchmark suite record (`BenchmarkSuite` dataclass). -/
structure BenchmarkSuite where
  timestamp : String
  input_file : String
  input_size : Nat
  tools_tested : List String
  results : List RunResult
  system_info : List (String × String)
deriving DecidableEq, Repr

/-- `BenchmarkRunner.export_json`: the JSON document written for a suite
(top-level keys in source order; the `tools` object carries the registry
metadata of the tested tools). -/
def export_json (tools : List (String × ToolConfig)) (suite : BenchmarkSuite) : Json :=
  .obj
    [("timestamp", .str suite.timestamp),
     ("input_file", .str suite.input_file),
     ("input_size", .num (suite.input_size : Rat)),
     ("system_info", .obj (suite.system_info.map fun p => (p.1, .str p.2))),
     ("tools", .obj ((tools.filter fun p => suite.tools_tested.contains p.1).map
        fun p => (p.1, .obj
          [("name", .str p.2.name),
           ("version", .str p.2.version),
           ("category", .str p.2.category),
           ("description", .str p.2.description)]))),
     ("results", .arr (suite.results.map runResultToJson))]

/-- Reading a reparsed JSON array element-wise back into `RunResult`s;
fails if any element fails. -/
def parseResultList : List Json → Option (List RunResult)
  | [] => some []
  | j :: js => do
    let r ← runResultOfJson j
    let rs ← parseResultList js
    pure (r :: rs)

/-- Reparsing the result sequence from an exported suite document. -/
def parseResults (j : Json) : Option (List RunResult) := do
  let .arr elems ← j.getField "results" | none
  parseResultList elems

/-! ## Lemmas: the best-of fold computes the first-seen minimum -/

theorem bestUpd_some (a r : RunResult) :
    bestUpd (some a) r = some (if r.elapsed_seconds < a.elapsed_seconds then r else a) := by
  by_cases h : r.elapsed_seconds < a.elapsed_seconds <;> simp [bestUpd, h]

theorem pickMin_none (x : RunResult) : pickMin x none = x := rfl

theorem pickMin_some (x y : RunResult) :
    pickMin x (some y) = if y.elapsed_seconds < x.elapsed_seconds then y else x := rfl

theorem pickMin_step (a r : RunResult) (m : Option RunResult) :
    pickMin (if r.elapsed_seconds < a.elapsed_seconds then r else a) m
      = pickMin a (some (pickMin r m)) := by
  cases m with
  | none => rw [pickMin_none, pickMin_none, pickMin_some]
  | some b =>
    rw [pickMin_some, pickMin_some, pickMin_some]
    by_cases h1 : r.elapsed_seconds < a.elapsed_seconds
    · rw [if_pos h1]
      by_cases h2 : b.elapsed_seconds < r.elapsed_seconds
      · rw [if_pos h2, if_pos (lt_trans h2 h1)]
      · rw [if_neg h2, if_pos h1]
    · rw [if_neg h1]
      by_cases h2 : b.elapsed_seconds < r.elapsed_seconds
      · rw [if_pos h2]
      · rw [if_neg h2, if_neg h1,
          if_neg (not_lt.mpr (le_trans (not_lt.mp h1) (not_lt.mp h2)))]

theorem bestFold_some (l : List RunResult) :
    ∀ a : RunResult, bestFold (some a) l = some (pickMin a (specFirstMinByElapsed l)) := by
  induction l with
  | nil => intro a; simp [bestFold, pickMin, specFirstMinByElapsed]
  | cons r rs ih =>
    intro a
    show bestFold (bestUpd (some a) r) rs = _
    rw [bestUpd_some, ih]
    show _ = some (pickMin a (specFirstMinByElapsed (r :: rs)))
    rw [show specFirstMinByElapsed (r :: rs)
          = some (pickMin r (specFirstMinByElapsed rs)) from rfl]
    exact congrArg some (pickMin_step a r (specFirstMinByElapsed rs))

theorem bestFold_none (l : List RunResult) :
    bestFold none l = specFirstMinByElapsed l := by
  cases l with
  | nil => rfl
  | cons r rs =>
    show bestFold (some r) rs = _
    rw [bestFold_some]
    rfl

/-- The two-accumulator pass is the product of two single folds over the
compress / non-compress partitions of the scanned results. -/
theorem bestPairAux_eq (l : List RunResult) :
    ∀ bc bd : Option RunResult,
      bestPairAux bc bd l =
        (bestFold bc (l.filter fun r => r.operation == "compress"),
         bestFold bd (l.filter fun r => !(r.operation == "compress"))) := by
  induction l with
  | nil => intro bc bd; rfl
  | cons r rs ih =>
    intro bc bd
    by_cases h : r.operation = "compress"
    · show (if r.operation == "compress" then bestPairAux (bestUpd bc r) bd rs
            else bestPairAux bc (bestUpd bd r) rs) = _
      rw [if_pos (by simp [h]), ih]
      simp [List.filter_cons, h, bestFold]
    · show (if r.operation == "compress" then bestPairAux (bestUpd bc r) bd rs
            else bestPairAux bc (bestUpd bd r) rs) = _
      rw [if_neg (by simp [h]), ih]
      simp [List.filter_cons, h, bestFold]

theorem specFirstMinByElapsed_eq_none {l : List RunResult} :
    specFirstMinByElapsed l = none ↔ l = [] := by
  cases l <;> simp [specFirstMinByElapsed]

theorem specFirstMinByElapsed_mem (l : List RunResult) :
    ∀ b : RunResult, specFirstMinByElapsed l = some b → b ∈ l := by
  induction l with
  | nil => intro b h; simp [specFirstMinByElapsed] at h
  | cons r rs ih =>
    intro b h
    rw [show specFirstMinByElapsed (r :: rs)
          = some (pickMin r (specFirstMinByElapsed rs)) from rfl] at h
    have hb : b = pickMin r (specFirstMinByElapsed rs) := (Option.some_inj.mp h).symm
    rcases hm : specFirstMinByElapsed rs with _ | c <;> rw [hm] at hb
    · rw [pickMin_none] at hb
      simp [hb]
    · rw [pickMin_some] at hb
      by_cases hcr : c.elapsed_seconds < r.elapsed_seconds
      · rw [if_pos hcr] at hb
        exact List.mem_cons_of_mem _ (hb ▸ ih c hm)
      · rw [if_neg hcr] at hb
        simp [hb]

theorem specFirstMinByElapsed_min (l : List RunResult) :
    ∀ b : RunResult, specFirstMinByElapsed l = some b →
      ∀ r ∈ l, b.elapsed_seconds ≤ r.elapsed_seconds := by
  induction l with
  | nil => intro b h; simp [specFirstMinByElapsed] at h
  | cons r rs ih =>
    intro b h
    rw [show specFirstMinByElapsed (r :: rs)
          = some (pickMin r (specFirstMinByElapsed rs)) from rfl] at h
    have hb : b = pickMin r (specFirstMinByElapsed rs) := (Option.some_inj.mp h).symm
    rcases hm : specFirstMinByElapsed rs with _ | c <;> rw [hm] at hb
    · rw [pickMin_none] at hb
      have hrs : rs = [] := specFirstMinByElapsed_eq_none.mp hm
      subst hrs
      intro x hx
      rw [List.mem_singleton.mp hx, hb]
    · rw [pickMin_some] at hb
      have hc := ih c hm
      intro x hx
      rcases List.mem_cons.mp hx with hx | hx
      · subst hx
        by_cases hcr : c.elapsed_seconds < x.elapsed_seconds
        · rw [if_pos hcr] at hb
          exact hb ▸ le_of_lt hcr
        · rw [if_neg hcr] at hb
          exact hb ▸ le_refl _
      · by_cases hcr : c.elapsed_seconds < r.elapsed_seconds
        · rw [if_pos hcr] at hb
          exact hb ▸ hc x hx
        · rw [if_neg hcr] at hb
          exact hb ▸ le_trans (not_lt.mp hcr) (hc x hx)

/-! ## Lemmas: the insertion sort emits rows in nondecreasing key order -/

theorem charListLt_false (x : List Char) :
    ∀ y : List Char, charListLt x y = false → charListLt y x = true ∨ x = y := by
  induction x with
  | nil =>
    intro y h
    cases y with
    | nil => exact Or.inr rfl
    | cons b bs => simp [charListLt] at h
  | cons a as ih =>
    intro y h
    cases y with
    | nil => exact Or.inl rfl
    | cons b bs =>
      rw [show charListLt (a :: as) (b :: bs)
            = (if a.val.toNat < b.val.toNat then true
               else if b.val.toNat < a.val.toNat then false
               else charListLt as bs) from rfl] at h
      by_cases hab : a.val.toNat < b.val.toNat
      · rw [if_pos hab] at h; exact absurd h (by simp)
      · rw [if_neg hab] at h
        by_cases hba : b.val.toNat < a.val.toNat
        · refine Or.inl ?_
          rw [show charListLt (b :: bs) (a :: as)
                = (if b.val.toNat < a.val.toNat then true
                   else if a.val.toNat < b.val.toNat then false
                   else charListLt bs as) from rfl]
          rw [if_pos hba]
        · rw [if_neg hba] at h
          have hv : a = b := Char.ext (UInt32.ext (le_antisymm (not_lt.mp hba) (not_lt.mp hab)))
          rcases ih bs h with hlt | heq
          · refine Or.inl ?_
            rw [show charListLt (b :: bs) (a :: as)
                  = (if b.val.toNat < a.val.toNat then true
                     else if a.val.toNat < b.val.toNat then false
                     else charListLt bs as) from rfl]
            rw [if_neg hba, if_neg hab]
            exact hlt
          · exact Or.inr (by rw [hv, heq])

theorem strLtB_false {a b : String} (h : strLtB a b = false) :
    strLtB b a = true ∨ a = b := by
  rcases charListLt_false a.data b.data h with hlt | heq
  · exact Or.inl hlt
  · exact Or.inr (String.ext heq)

theorem keyLt_imp_keyLe {a b : String × Nat} (h : keyLt a b = true) :
    keyLe a b = true := by
  rcases Bool.or_eq_true_iff.mp h with hs | hn
  · exact Bool.or_eq_true_iff.mpr (Or.inl hs)
  · rcases Bool.and_eq_true_iff.mp hn with ⟨he, hlt⟩
    refine Bool.or_eq_true_iff.mpr (Or.inr (Bool.and_eq_true_iff.mpr ⟨he, ?_⟩))
    exact decide_eq_true (le_of_lt (of_decide_eq_true hlt))

theorem keyLt_false_keyLe {a b : String × Nat} (h : keyLt a b = false) :
    keyLe b a = true := by
  have hs : strLtB a.1 b.1 = false := by
    rcases hx : strLtB a.1 b.1 with _ | _
    · rfl
    · rw [keyLt, hx] at h; simp at h
  rcases strLtB_false hs with hba | heq
  · exact Bool.or_eq_true_iff.mpr (Or.inl hba)
  · have he : (a.1 == b.1) = true := beq_iff_eq.mpr heq
    have hnlt : ¬ a.2 < b.2 := by
      intro hlt
      rw [keyLt, hs, he] at h
      simp [hlt] at h
    refine Bool.or_eq_true_iff.mpr (Or.inr (Bool.and_eq_true_iff.mpr ⟨?_, ?_⟩))
    · exact beq_iff_eq.mpr heq.symm
    · exact decide_eq_true (not_lt.mp hnlt)

theorem chain'_insertByKey {α : Type} (key : α → String × Nat) (a : α) :
    ∀ l : List α, List.Chain' (fun x y => keyLe (key x) (key y) = true) l →
      List.Chain' (fun x y => keyLe (key x) (key y) = true) (insertByKey key a l) := by
  intro l
  induction l with
  | nil => intro _; exact List.chain'_singleton a
  | cons x xs ih =>
    intro hch
    have hx_head := (List.chain'_cons'.mp hch).1
    have hxs := (List.chain'_cons'.mp hch).2
    rw [show insertByKey key a (x :: xs)
          = (if keyLt (key x) (key a) then x :: insertByKey key a xs
             else a :: x :: xs) from rfl]
    by_cases hlt : keyLt (key x) (key a) = true
    · rw [if_pos hlt]
      refine List.chain'_cons'.mpr ⟨?_, ih hxs⟩
      intro y hy
      cases xs with
      | nil =>
        rw [show insertByKey key a ([] : List α) = [a] from rfl] at hy
        simp at hy
        rw [← hy]
        exact keyLt_imp_keyLe hlt
      | cons z zs =>
        rw [show insertByKey key a (z :: zs)
              = (if keyLt (key z) (key a) then z :: insertByKey key a zs
                 else a :: z :: zs) from rfl] at hy
        by_cases hz : keyLt (key z) (key a) = true
        · rw [if_pos hz] at hy
          simp at hy
          rw [← hy]
          exact hx_head z rfl
        · rw [if_neg hz] at hy
          simp at hy
          rw [← hy]
          exact keyLt_imp_keyLe hlt
    · rw [if_neg hlt]
      refine List.chain'_cons'.mpr ⟨?_, hch⟩
      intro y hy
      simp at hy
      rw [← hy]
      exact keyLt_false_keyLe (eq_false_of_ne_true hlt)

theorem chain'_sortByKey {α : Type} (key : α → String × Nat) :
    ∀ l : List α, List.Chain' (fun x y => keyLe (key x) (key y) = true) (sortByKey key l) := by
  intro l
  induction l with
  | nil => exact List.chain'_nil
  | cons a as ih => exact chain'_insertByKey key a (sortByKey key as) ih

/-! ## Lemmas: JSON round trip -/

theorem runResultOfJson_toJson (r : RunResult) :
    runResultOfJson (runResultToJson r) = some r := by
  cases r with
  | mk tool operation input_size output_size elapsed threads success error =>
    cases error <;>
      simp [runResultOfJson, runResultToJson, Json.getField, List.lookup,
        Rat.den_natCast, Rat.num_natCast, Int.toNat_natCast, Int.natCast_nonneg]

theorem parseResultList_map (l : List RunResult) :
    parseResultList (l.map runResultToJson) = some l := by
  induction l with
  | nil => rfl
  | cons r rs ih =>
    simp [parseResultList, runResultOfJson_toJson, ih]

/-! ## Lemmas: explicit form of one trial -/

/-- The compress `RunResult` recorded by `benchmark_tool` (explicit form of
the record built at lines 253–262 of the source). -/
def trialCompress (tool_id : String) (env : TrialEnv) (threads : Nat) : RunResult :=
  { tool := tool_id, operation := "compress", input_size := env.input_size,
    output_size := if (run_command 3600 env.compressProc).2.1 then env.compressedSize else 0,
    elapsed_seconds := (run_command 3600 env.compressProc).1,
    threads := threads,
    success := (run_command 3600 env.compressProc).2.1,
    error := if (run_command 3600 env.compressProc).2.1 then none
             else some (run_command 3600 env.compressProc).2.2 }

/-- The decompress `RunResult` recorded by `benchmark_tool` before the
integrity check (lines 277–286). -/
def trialDecompressRaw (tool_id : String) (env : TrialEnv) (threads : Nat) : RunResult :=
  { tool := tool_id, operation := "decompress",
    input_size := if (run_command 3600 env.compressProc).2.1 then env.compressedSize else 0,
    output_size := if (run_command 3600 env.decompressProc).2.1 then env.decompressedSize else 0,
    elapsed_seconds := (run_command 3600 env.decompressProc).1,
    threads := threads,
    success := (run_command 3600 env.decompressProc).2.1,
    error := if (run_command 3600 env.decompressProc).2.1 then none
             else some (run_command 3600 env.decompressProc).2.2 }

/-- The decompress `RunResult` after the integrity check (lines 289–292). -/
def trialDecompress (tool_id : String) (env : TrialEnv) (threads : Nat)
    (verify : Bool) : RunResult :=
  if verify && (run_command 3600 env.decompressProc).2.1 && env.decompressedExists
      && !((if (run_command 3600 env.decompressProc).2.1 then env.decompressedSize else 0)
            == env.input_size) then
    { trialDecompressRaw tool_id env threads with
      error := some ("Size mismatch: "
        ++ toString (if (run_command 3600 env.decompressProc).2.1 then env.decompressedSize else 0)
        ++ " vs " ++ toString env.input_size) }
  else trialDecompressRaw tool_id env threads

theorem benchmark_tool_cases (tools : List (String × ToolConfig)) (tool_id : String)
    (env : TrialEnv) (threads : Nat) (verify : Bool) :
    benchmark_tool tools tool_id env threads verify =
      match tools.lookup tool_id with
      | none => []
      | some _ =>
        if (run_command 3600 env.compressProc).2.1 && env.compressedExists then
          [trialCompress tool_id env threads, trialDecompress tool_id env threads verify]
        else [trialCompress tool_id env threads] := rfl

/-! ## Claims -/

set_option maxRecDepth 10000

/-- C5: `_run_command` maps each subprocess outcome as specified: nonzero
exit → (measured elapsed, success=false, first 200 characters of stderr);
timeout → (timeout bound, false, "Timeout"); any other execution failure →
(0, false, stringified cause); zero exit → (measured elapsed, true, ""). -/
theorem c5_run_command_mapping (t e : Rat) (rc : Int) (s cause : String) :
    (rc ≠ 0 → run_command t (.completed e rc s) = (e, false, s.take 200)) ∧
    run_command t .timedOut = (t, false, "Timeout") ∧
    run_command t (.failed cause) = (0, false, cause) ∧
    (rc = 0 → run_command t (.completed e rc s) = (e, true, "")) := by
  refine ⟨fun h => ?_, rfl, rfl, fun h => ?_⟩
  · simp [run_command, h]
  · simp [run_command, h]

/-- Witness for C5 at concrete outcomes. -/
theorem c5_witness :
    run_command 60 (.completed 2 1 "boom") = (2, false, "boom") ∧
    run_command 60 (.completed 3 0 "x") = (3, true, "") := by
  constructor
  · exact ((c5_run_command_mapping 60 2 1 "boom" "c").1 (by decide)).trans (by rfl)
  · exact (c5_run_command_mapping 60 3 0 "x" "c").2.2.2 rfl

/-- Concrete `RunResult` separating the hardcoded payload fraction from a
caller-supplied one: input 16 bytes, output 1 byte. -/
def c6ex : RunResult :=
  { tool := "t", operation := "compress", input_size := 16, output_size := 1,
    elapsed_seconds := 1, threads := 1, success := true, error := none }

/-- C6 counterexample: the source's bits-per-base metric hardcodes the 0.5
payload fraction, so it does not agree with the reference
`bitsPerUnit(input, output, unitFraction)` at a caller-supplied
`unitFraction` (here 1): the code yields 1 bit/base on `c6ex` while the
reference at `unitFraction = 1` yields 1/2. -/
theorem c6_counterexample :
    RunResult.bits_per_base c6ex = 1 ∧ specBitsPerUnit 16 1 1 = 1/2 ∧
    ¬ (∀ u : Rat, RunResult.bits_per_base c6ex = specBitsPerUnit 16 1 u) := by
  have h1 : RunResult.bits_per_base c6ex = 1 := by
    norm_num [RunResult.bits_per_base, c6ex]
  have h2 : specBitsPerUnit 16 1 1 = 1/2 := by
    norm_num [specBitsPerUnit]
  refine ⟨h1, h2, fun h => ?_⟩
  have := (h 1).symm.trans h1
  rw [h2] at this
  norm_num at this

/-- C6 (amended): the derived metrics equal the reference definitions, with
the bits-per-unit payload fraction fixed to 0.5 inside the deriver (rather
than supplied by the caller): `ratio = specRatio`,
`speed_mb_s = specThroughputMBps` (1MB = 1048576 bytes), and
`bits_per_base = specBitsPerUnit · · (1/2)`. -/
theorem c6_metrics_reference (r : RunResult) :
    r.ratio = specRatio r.input_size r.output_size ∧
    r.speed_mb_s = specThroughputMBps r.input_size r.elapsed_seconds ∧
    r.bits_per_base = specBitsPerUnit r.input_size r.output_size (1/2) := by
  refine ⟨rfl, ?_, ?_⟩
  · by_cases h : r.elapsed_seconds = 0
    · simp [RunResult.speed_mb_s, specThroughputMBps, h]
    · simp only [RunResult.speed_mb_s, specThroughputMBps, h, if_false, div_div]
      norm_num
  · by_cases h : r.input_size = 0 <;>
      simp [RunResult.bits_per_base, specBitsPerUnit, h]

/-- Nonnegativity of the measured wall time of a completed subprocess
(`time.perf_counter()` differences are nonnegative). -/
def procElapsedNonneg : ProcOutcome → Prop
  | .completed e _ _ => 0 ≤ e
  | .timedOut => True
  | .failed _ => True

theorem run_command_fst_nonneg (p : ProcOutcome) (h : procElapsedNonneg p) :
    0 ≤ (run_command 3600 p).1 := by
  cases p with
  | completed e rc s =>
    by_cases hrc : rc ≠ 0 <;> simpa [run_command, hrc] using h
  | timedOut => norm_num [run_command]
  | failed c => norm_num [run_command]

theorem ratio_nonneg (r : RunResult) : 0 ≤ r.ratio := by
  unfold RunResult.ratio
  split
  · exact le_refl 0
  · positivity

theorem ratio_eq_zero_of_output_zero {r : RunResult} (h : r.output_size = 0) :
    r.ratio = 0 := by
  unfold RunResult.ratio
  split
  · rfl
  · rw [h]; norm_num

theorem speed_nonneg (r : RunResult) (h : 0 ≤ r.elapsed_seconds) :
    0 ≤ r.speed_mb_s := by
  unfold RunResult.speed_mb_s
  split
  · exact le_refl 0
  · have h1 : (0 : Rat) ≤ (r.input_size : Rat) / 1024 / 1024 := by positivity
    exact div_nonneg h1 h

theorem trialDecompress_success (tool_id : String) (env : TrialEnv) (threads : Nat)
    (verify : Bool) :
    (trialDecompress tool_id env threads verify).success
      = (run_command 3600 env.decompressProc).2.1 := by
  unfold trialDecompress
  by_cases h : (verify && (run_command 3600 env.decompressProc).2.1 && env.decompressedExists
      && !((if (run_command 3600 env.decompressProc).2.1 then env.decompressedSize else 0)
            == env.input_size)) = true
  · rw [if_pos h]; rfl
  · rw [if_neg h]; rfl

theorem trialDecompress_output (tool_id : String) (env : TrialEnv) (threads : Nat)
    (verify : Bool) :
    (trialDecompress tool_id env threads verify).output_size
      = (if (run_command 3600 env.decompressProc).2.1 then env.decompressedSize else 0) := by
  unfold trialDecompress
  by_cases h : (verify && (run_command 3600 env.decompressProc).2.1 && env.decompressedExists
      && !((if (run_command 3600 env.decompressProc).2.1 then env.decompressedSize else 0)
            == env.input_size)) = true
  · rw [if_pos h]; rfl
  · rw [if_neg h]; rfl

theorem trialDecompress_elapsed (tool_id : String) (env : TrialEnv) (threads : Nat)
    (verify : Bool) :
    (trialDecompress tool_id env threads verify).elapsed_seconds
      = (run_command 3600 env.decompressProc).1 := by
  unfold trialDecompress
  by_cases h : (verify && (run_command 3600 env.decompressProc).2.1 && env.decompressedExists
      && !((if (run_command 3600 env.decompressProc).2.1 then env.decompressedSize else 0)
            == env.input_size)) = true
  · rw [if_pos h]; rfl
  · rw [if_neg h]; rfl

theorem trialDecompress_input (tool_id : String) (env : TrialEnv) (threads : Nat)
    (verify : Bool) :
    (trialDecompress tool_id env threads verify).input_size
      = (if (run_command 3600 env.compressProc).2.1 then env.compressedSize else 0) := by
  unfold trialDecompress
  by_cases h : (verify && (run_command 3600 env.decompressProc).2.1 && env.decompressedExists
      && !((if (run_command 3600 env.decompressProc).2.1 then env.decompressedSize else 0)
            == env.input_size)) = true
  · rw [if_pos h]; rfl
  · rw [if_neg h]; rfl

/-- A registry with one tool, used in concrete scenarios. -/
def gzipCfg : ToolConfig :=
  { name := "gzip", compress := "gzip -k -c {input} > {output}",
    decompress := "gzip -dc {output} > {decompressed}", extension := ".fastq.gz",
    category := "general", description := "General-purpose compressor" }

/-- A one-entry registry. -/
def oneToolRegistry : List (String × ToolConfig) := [("gzip", gzipCfg)]

/-- Trial environment in which compression exits nonzero after 2 measured
seconds on a 2 MiB input. -/
def c2env : TrialEnv :=
  { input_size := 2097152, compressProc := .completed 2 1 "err",
    compressedExists := false, compressedSize := 0,
    decompressProc := .completed 0 0 "", decompressedExists := false,
    decompressedSize := 0 }

/-- The failed compress result recorded in `c2env`. -/
def c2failR : RunResult :=
  { tool := "gzip", operation := "compress", input_size := 2097152,
    output_size := 0, elapsed_seconds := 2, threads := 1, success := false,
    error := some "err" }

/-- C2 counterexample: a failed RunResult produced by `benchmark_tool`
(nonzero exit after 2 s on a 2 MiB input) has derived throughput
1 MB/s, not 0 — the speed property is computed from `input_size` and
`elapsed_seconds` regardless of the success flag. -/
theorem c2_counterexample :
    benchmark_tool oneToolRegistry "gzip" c2env 1 true = [c2failR] ∧
    c2failR.success = false ∧ c2failR.speed_mb_s = 1 := by
  refine ⟨rfl, rfl, ?_⟩
  norm_num [RunResult.speed_mb_s, c2failR]

/-- C2 (amended): every RunResult produced by `benchmark_tool` (under
nonnegative measured times) has `ratio ≥ 0` and `speed_mb_s ≥ 0`; when its
success flag is false its `output_size` is 0 and its derived ratio is 0 —
but its derived throughput is still computed from `input_size` and
`elapsed_seconds` and need not be 0 (see the counterexample). -/
theorem c2_metrics_amended (tools : List (String × ToolConfig)) (tool_id : String)
    (env : TrialEnv) (threads : Nat) (verify : Bool) (r : RunResult)
    (hmem : r ∈ benchmark_tool tools tool_id env threads verify)
    (hc : procElapsedNonneg env.compressProc)
    (hd : procElapsedNonneg env.decompressProc) :
    0 ≤ r.ratio ∧ 0 ≤ r.speed_mb_s ∧
    (r.success = false → r.output_size = 0 ∧ r.ratio = 0) := by
  rw [benchmark_tool_cases] at hmem
  rcases hl : tools.lookup tool_id with _ | cfg <;> rw [hl] at hmem
  · simp at hmem
  · by_cases hb : ((run_command 3600 env.compressProc).2.1 && env.compressedExists) = true
    · rw [if_pos hb] at hmem
      rcases List.mem_cons.mp hmem with hr | hr
      · subst hr
        refine ⟨ratio_nonneg _, speed_nonneg _ (run_command_fst_nonneg _ hc), fun hf => ?_⟩
        have ho : (trialCompress tool_id env threads).output_size = 0 := by
          unfold trialCompress at hf ⊢
          simp only at hf ⊢
          simp [hf]
        exact ⟨ho, ratio_eq_zero_of_output_zero ho⟩
      · have hr2 : r = trialDecompress tool_id env threads verify := by
          simpa using hr
        subst hr2
        refine ⟨ratio_nonneg _, speed_nonneg _ ?_, fun hf => ?_⟩
        · rw [trialDecompress_elapsed]
          exact run_command_fst_nonneg _ hd
        · rw [trialDecompress_success] at hf
          have ho : (trialDecompress tool_id env threads verify).output_size = 0 := by
            rw [trialDecompress_output, hf]
            simp
          exact ⟨ho, ratio_eq_zero_of_output_zero ho⟩
    · rw [if_neg hb] at hmem
      have hr : r = trialCompress tool_id env threads := by simpa using hmem
      subst hr
      refine ⟨ratio_nonneg _, speed_nonneg _ (run_command_fst_nonneg _ hc), fun hf => ?_⟩
      have ho : (trialCompress tool_id env threads).output_size = 0 := by
        unfold trialCompress at hf ⊢
        simp only at hf ⊢
        simp [hf]
      exact ⟨ho, ratio_eq_zero_of_output_zero ho⟩

/-- Witness for C2 (amended) at the concrete failing environment. -/
theorem c2_witness :
    0 ≤ RunResult.ratio c2failR ∧ 0 ≤ RunResult.speed_mb_s c2failR ∧
    (c2failR.success = false → c2failR.output_size = 0 ∧ RunResult.ratio c2failR = 0) := by
  have hmem : c2failR ∈ benchmark_tool oneToolRegistry "gzip" c2env 1 true := by
    rw [show benchmark_tool oneToolRegistry "gzip" c2env 1 true = [c2failR] from rfl]
    exact List.mem_singleton.mpr rfl
  exact c2_metrics_amended oneToolRegistry "gzip" c2env 1 true c2failR hmem
    (by norm_num [c2env, procElapsedNonneg]) (by norm_num [c2env, procElapsedNonneg])

theorem trialDecompress_operation (tool_id : String) (env : TrialEnv) (threads : Nat)
    (verify : Bool) :
    (trialDecompress tool_id env threads verify).operation = "decompress" := by
  unfold trialDecompress
  by_cases h : (verify && (run_command 3600 env.decompressProc).2.1 && env.decompressedExists
      && !((if (run_command 3600 env.decompressProc).2.1 then env.decompressedSize else 0)
            == env.input_size)) = true
  · rw [if_pos h]; rfl
  · rw [if_neg h]; rfl

/-- C3: when the decompression process exits successfully but the
decompressed byte size differs from the original input byte size (and the
size check is enabled and the decompressed file exists), `benchmark_tool`
overwrites the decompress result's error field with a non-empty descriptive
message while leaving its success flag equal to the process exit status and
its elapsed time equal to the measured run time. -/
theorem c3_integrity_overwrite (tools : List (String × ToolConfig)) (tool_id : String)
    (env : TrialEnv) (threads : Nat) (cfg : ToolConfig)
    (hl : tools.lookup tool_id = some cfg)
    (hcs : (run_command 3600 env.compressProc).2.1 = true)
    (hex : env.compressedExists = true)
    (hds : (run_command 3600 env.decompressProc).2.1 = true)
    (hdex : env.decompressedExists = true)
    (hmism : env.decompressedSize ≠ env.input_size) :
    ∃ d : RunResult,
      benchmark_tool tools tool_id env threads true
        = [trialCompress tool_id env threads, d] ∧
      d.success = (run_command 3600 env.decompressProc).2.1 ∧
      d.elapsed_seconds = (run_command 3600 env.decompressProc).1 ∧
      d.error = some ("Size mismatch: " ++ toString env.decompressedSize
        ++ " vs " ++ toString env.input_size) ∧
      ("Size mismatch: " ++ toString env.decompressedSize
        ++ " vs " ++ toString env.input_size) ≠ "" := by
  have hcond : (true && (run_command 3600 env.decompressProc).2.1 && env.decompressedExists
      && !((if (run_command 3600 env.decompressProc).2.1 then env.decompressedSize else 0)
            == env.input_size)) = true := by
    rw [hds, hdex]
    simp [hmism]
  refine ⟨trialDecompress tool_id env threads true, ?_, trialDecompress_success _ _ _ _,
    trialDecompress_elapsed _ _ _ _, ?_, ?_⟩
  · rw [benchmark_tool_cases, hl, if_pos (by rw [hcs, hex]; rfl)]
  · unfold trialDecompress
    rw [if_pos hcond]
    rw [hds]
    simp
  · intro hemp
    have hlen : ("Size mismatch: " ++ toString env.decompressedSize
        ++ " vs " ++ toString env.input_size).length = 0 := by
      rw [hemp]; rfl
    rw [String.length_append, String.length_append, String.length_append,
      show ("Size mismatch: ").length = 15 from rfl,
      show (" vs ").length = 4 from rfl] at hlen
    omega

/-- Trial environment: compression succeeds, decompression succeeds, but the
decompressed size (9) differs from the input size (10). -/
def c3env : TrialEnv :=
  { input_size := 10, compressProc := .completed 1 0 "",
    compressedExists := true, compressedSize := 4,
    decompressProc := .completed 2 0 "", decompressedExists := true,
    decompressedSize := 9 }

/-- Witness for C3 at the concrete mismatching environment. -/
theorem c3_witness :
    ∃ d : RunResult,
      benchmark_tool oneToolRegistry "gzip" c3env 1 true
        = [trialCompress "gzip" c3env 1, d] ∧
      d.success = (run_command 3600 c3env.decompressProc).2.1 ∧
      d.elapsed_seconds = (run_command 3600 c3env.decompressProc).1 ∧
      d.error = some ("Size mismatch: " ++ toString c3env.decompressedSize
        ++ " vs " ++ toString c3env.input_size) ∧
      ("Size mismatch: " ++ toString c3env.decompressedSize
        ++ " vs " ++ toString c3env.input_size) ≠ "" :=
  c3_integrity_overwrite oneToolRegistry "gzip" c3env 1 gzipCfg rfl rfl rfl rfl rfl
    (by decide)

/-- C4: trial structure of `benchmark_tool` — unknown tool id yields the
empty list; two results are produced iff compression succeeded and the
compressed artifact exists; compression failure yields exactly the single
compress result; and when compression succeeds but decompression exits
nonzero, the list is exactly one successful compress result followed by one
failed decompress result with `output_size = 0`. -/
theorem c4_trial_structure (tools : List (String × ToolConfig)) (tool_id : String)
    (env : TrialEnv) (threads : Nat) (verify : Bool) :
    (tools.lookup tool_id = none → benchmark_tool tools tool_id env threads verify = []) ∧
    (∀ cfg, tools.lookup tool_id = some cfg →
      ((benchmark_tool tools tool_id env threads verify).length = 2 ↔
        ((run_command 3600 env.compressProc).2.1 && env.compressedExists) = true)) ∧
    (∀ cfg, tools.lookup tool_id = some cfg →
      ¬ ((run_command 3600 env.compressProc).2.1 = true ∧ env.compressedExists = true) →
      benchmark_tool tools tool_id env threads verify = [trialCompress tool_id env threads]) ∧
    (∀ cfg, tools.lookup tool_id = some cfg →
      (run_command 3600 env.compressProc).2.1 = true → env.compressedExists = true →
      (run_command 3600 env.decompressProc).2.1 = false →
      ∃ c d, benchmark_tool tools tool_id env threads verify = [c, d] ∧
        c.operation = "compress" ∧ c.success = true ∧
        d.operation = "decompress" ∧ d.success = false ∧ d.output_size = 0) := by
  refine ⟨fun h => by rw [benchmark_tool_cases, h], fun cfg hl => ?_, fun cfg hl hn => ?_,
    fun cfg hl hcs hex hdf => ?_⟩
  · rw [benchmark_tool_cases, hl]
    by_cases hb : ((run_command 3600 env.compressProc).2.1 && env.compressedExists) = true
    · rw [if_pos hb]
      simp [hb]
    · rw [if_neg hb]
      simp [hb]
  · rw [benchmark_tool_cases, hl, if_neg]
    rw [Bool.and_eq_true]
    exact hn
  · refine ⟨trialCompress tool_id env threads, trialDecompress tool_id env threads verify,
      ?_, rfl, hcs, trialDecompress_operation _ _ _ _, ?_, ?_⟩
    · rw [benchmark_tool_cases, hl, if_pos (by rw [hcs, hex]; rfl)]
    · rw [trialDecompress_success]
      exact hdf
    · rw [trialDecompress_output, hdf]
      simp

/-- Trial environment: compression succeeds, decompression exits nonzero. -/
def c4env : TrialEnv :=
  { input_size := 10, compressProc := .completed 1 0 "",
    compressedExists := true, compressedSize := 4,
    decompressProc := .completed 2 1 "bad", decompressedExists := false,
    decompressedSize := 0 }

/-- Witness for C4 on concrete environments covering all three scenarios. -/
theorem c4_witness :
    benchmark_tool [] "gzip" c2env 1 true = [] ∧
    benchmark_tool oneToolRegistry "gzip" c2env 1 true = [trialCompress "gzip" c2env 1] ∧
    (∃ c d, benchmark_tool oneToolRegistry "gzip" c4env 1 true = [c, d] ∧
      c.operation = "compress" ∧ c.success = true ∧
      d.operation = "decompress" ∧ d.success = false ∧ d.output_size = 0) := by
  refine ⟨(c4_trial_structure [] "gzip" c2env 1 true).1 rfl,
    (c4_trial_structure oneToolRegistry "gzip" c2env 1 true).2.2.1 gzipCfg rfl (by decide),
    (c4_trial_structure oneToolRegistry "gzip" c4env 1 true).2.2.2 gzipCfg rfl (by decide)
      (by decide) (by decide)⟩

/-- The compress record built by `benchmark_binary` (explicit form). -/
def binCompress (compiler : String) (env : BinaryEnv) (threads : Nat) :
    CompilerBenchmarkResult :=
  { compiler := compiler, operation := "compress", input_size := env.input_size,
    output_size := if (run_timed_command 3600 env.compressProc).2.1 then env.compressedSize else 0,
    elapsed_seconds := (run_timed_command 3600 env.compressProc).1,
    threads := threads,
    success := (run_timed_command 3600 env.compressProc).2.1,
    error := if (run_timed_command 3600 env.compressProc).2.1 then none
             else some (run_timed_command 3600 env.compressProc).2.2.1,
    peak_memory_mb := (run_timed_command 3600 env.compressProc).2.2.2 }

/-- The decompress record built by `benchmark_binary` (explicit form). -/
def binDecompress (compiler : String) (env : BinaryEnv) (threads : Nat) :
    CompilerBenchmarkResult :=
  { compiler := compiler, operation := "decompress",
    input_size := if (run_timed_command 3600 env.compressProc).2.1 then env.compressedSize else 0,
    output_size := if (run_timed_command 3600 env.decompressProc).2.1 then env.decompressedSize else 0,
    elapsed_seconds := (run_timed_command 3600 env.decompressProc).1,
    threads := threads,
    success := (run_timed_command 3600 env.decompressProc).2.1,
    error := if (run_timed_command 3600 env.decompressProc).2.1 then none
             else some (run_timed_command 3600 env.decompressProc).2.2.1,
    peak_memory_mb := (run_timed_command 3600 env.decompressProc).2.2.2 }

theorem benchmark_binary_cases (compiler : String) (env : BinaryEnv) (threads : Nat) :
    benchmark_binary compiler env threads =
      if (run_timed_command 3600 env.compressProc).2.1 && env.compressedExists then
        [binCompress compiler env threads, binDecompress compiler env threads]
      else [binCompress compiler env threads] := rfl

/-- C10: whenever one trial produces both a compress and a decompress
result (in `benchmark_tool` or in `benchmark_binary`), the decompress
result's `input_size` equals the compress result's `output_size` (the
compressed artifact's byte size), and hence its derived throughput is
compressed megabytes per elapsed second. -/
theorem c10_decompress_input_size (tools : List (String × ToolConfig)) (tool_id : String)
    (env : TrialEnv) (threads : Nat) (verify : Bool) (c d : RunResult)
    (compiler : String) (benv : BinaryEnv) (bthreads : Nat)
    (bc bd : CompilerBenchmarkResult)
    (h : benchmark_tool tools tool_id env threads verify = [c, d])
    (hb : benchmark_binary compiler benv bthreads = [bc, bd]) :
    d.input_size = c.output_size ∧
    d.speed_mb_s = (if d.elapsed_seconds = 0 then 0
      else ((c.output_size : Rat) / 1024 / 1024) / d.elapsed_seconds) ∧
    bd.input_size = bc.output_size ∧
    bd.speed_mb_s = (if bd.elapsed_seconds = 0 then 0
      else ((bc.output_size : Rat) / 1024 / 1024) / bd.elapsed_seconds) := by
  rw [benchmark_tool_cases] at h
  rw [benchmark_binary_cases] at hb
  have h1 : d.input_size = c.output_size := by
    rcases hl : tools.lookup tool_id with _ | cfg <;> rw [hl] at h
    · simp at h
    · by_cases hc : ((run_command 3600 env.compressProc).2.1 && env.compressedExists) = true
      · rw [if_pos hc] at h
        have hc1 : c = trialCompress tool_id env threads := (List.cons.injEq _ _ _ _ ▸ h).1.symm
        have hd1 : d = trialDecompress tool_id env threads verify := by
          have := (List.cons.injEq _ _ _ _ ▸ h).2
          simpa using this.symm
        rw [hc1, hd1, trialDecompress_input]
        rfl
      · rw [if_neg hc] at h
        simp at h
  have h2 : bd.input_size = bc.output_size := by
    by_cases hc : ((run_timed_command 3600 benv.compressProc).2.1 && benv.compressedExists) = true
    · rw [if_pos hc] at hb
      have hc1 : bc = binCompress compiler benv bthreads := (List.cons.injEq _ _ _ _ ▸ hb).1.symm
      have hd1 : bd = binDecompress compiler benv bthreads := by
        have := (List.cons.injEq _ _ _ _ ▸ hb).2
        simpa using this.symm
      rw [hc1, hd1]
      rfl
    · rw [if_neg hc] at hb
      simp at hb
  refine ⟨h1, ?_, h2, ?_⟩
  · unfold RunResult.speed_mb_s
    rw [h1]
  · unfold CompilerBenchmarkResult.speed_mb_s
    rw [h2]

/-- Binary environment: both operations succeed. -/
def c10binEnv : BinaryEnv :=
  { input_size := 10, compressProc := .completed 1 0 "" 5,
    compressedExists := true, compressedSize := 4,
    decompressProc := .completed 2 0 "" 6, decompressedExists := true,
    decompressedSize := 10 }

/-- Witness for C10 at concrete environments where both results exist. -/
theorem c10_witness :
    (trialDecompress "gzip" c3env 1 true).input_size
      = (trialCompress "gzip" c3env 1).output_size ∧
    (binDecompress "gcc" c10binEnv 4).input_size
      = (binCompress "gcc" c10binEnv 4).output_size := by
  have h := c10_decompress_input_size oneToolRegistry "gzip" c3env 1 true
    (trialCompress "gzip" c3env 1) (trialDecompress "gzip" c3env 1 true)
    "gcc" c10binEnv 4 (binCompress "gcc" c10binEnv 4) (binDecompress "gcc" c10binEnv 4)
    rfl rfl
  exact ⟨h.1, h.2.2.1⟩

/-- A failed compress trial result: nonzero exit after 1 s. -/
def c1fail : RunResult :=
  { tool := "gzip", operation := "compress", input_size := 100, output_size := 0,
    elapsed_seconds := 1, threads := 1, success := false, error := some "boom" }

/-- A successful compress trial result, slower (2 s). -/
def c1ok : RunResult :=
  { tool := "gzip", operation := "compress", input_size := 100, output_size := 50,
    elapsed_seconds := 2, threads := 1, success := true, error := none }

/-- C1 counterexample: the best-of-N fold of `run_benchmark` does not
restrict eligibility to successful results and does not leave the slot
absent when all trials fail — with trials `[1 s failed, 2 s successful]` the
suite retains the failed result, and with a single all-failed trial the
slot is still appended (the result sequence is not empty). -/
theorem c1_counterexample :
    sweepResults [[[c1fail], [c1ok]]] = [c1fail] ∧ c1fail.success = false ∧
    sweepResults [[[c1fail]]] = [c1fail] ∧ sweepResults [[[c1fail]]] ≠ [] := by
  refine ⟨by decide, rfl, by decide, by decide⟩

/-- C1 (amended): for one `(tool, threads)` configuration, the best-of-N
reduction retains, per operation kind, the first-seen result with minimum
elapsed time among **all** results of the N trials regardless of success
(`bestPair = specFirstMinByElapsed` of each operation-kind partition); the
per-kind slot is absent from the configuration's contribution iff no trial
produced a result of that kind, and otherwise a record is appended even if
every trial failed; the retained result is a member of its partition and is
globally minimal there. -/
theorem c1_best_of_amended (trials : List (List RunResult)) :
    bestPair trials
      = (specFirstMinByElapsed ((trials.flatten).filter fun r => r.operation == "compress"),
         specFirstMinByElapsed ((trials.flatten).filter fun r => !(r.operation == "compress"))) ∧
    ((bestPair trials).1 = none ↔
      ((trials.flatten).filter fun r => r.operation == "compress") = []) ∧
    ((bestPair trials).2 = none ↔
      ((trials.flatten).filter fun r => !(r.operation == "compress")) = []) ∧
    (∀ b, (bestPair trials).1 = some b →
      b ∈ (trials.flatten).filter (fun r => r.operation == "compress") ∧
      ∀ r ∈ (trials.flatten).filter (fun r => r.operation == "compress"),
        b.elapsed_seconds ≤ r.elapsed_seconds) ∧
    (∀ b, (bestPair trials).2 = some b →
      b ∈ (trials.flatten).filter (fun r => !(r.operation == "compress")) ∧
      ∀ r ∈ (trials.flatten).filter (fun r => !(r.operation == "compress")),
        b.elapsed_seconds ≤ r.elapsed_seconds) ∧
    configResults trials = (bestPair trials).1.toList ++ (bestPair trials).2.toList := by
  have he : bestPair trials
      = (specFirstMinByElapsed ((trials.flatten).filter fun r => r.operation == "compress"),
         specFirstMinByElapsed ((trials.flatten).filter fun r => !(r.operation == "compress"))) := by
    unfold bestPair
    rw [bestPairAux_eq, bestFold_none, bestFold_none]
  refine ⟨he, ?_, ?_, ?_, ?_, rfl⟩
  · rw [he]
    exact specFirstMinByElapsed_eq_none
  · rw [he]
    exact specFirstMinByElapsed_eq_none
  · intro b hb
    rw [he] at hb
    exact ⟨specFirstMinByElapsed_mem _ b hb, specFirstMinByElapsed_min _ b hb⟩
  · intro b hb
    rw [he] at hb
    exact ⟨specFirstMinByElapsed_mem _ b hb, specFirstMinByElapsed_min _ b hb⟩

/-- Witness for C1 (amended): on the concrete trials, the retained compress
result is a member of the scanned compress results and minimal there. -/
theorem c1_witness :
    c1fail ∈ (([[c1fail], [c1ok]] : List (List RunResult)).flatten.filter
      (fun r => r.operation == "compress")) ∧
    ∀ r ∈ (([[c1fail], [c1ok]] : List (List RunResult)).flatten.filter
      (fun r => r.operation == "compress")),
      c1fail.elapsed_seconds ≤ r.elapsed_seconds :=
  (c1_best_of_amended [[c1fail], [c1ok]]).2.2.2.1 c1fail (by decide)

/-- A gcc compression row whose throughput is 0 (a failed sample). -/
def c7gccRow : ReportRecord :=
  { compiler := "gcc", test := "compression", iteration := 1, input_size := 100,
    output_size := 50, elapsed_seconds := 2, throughput_mbps := 0,
    compression_ratio := 1 }

/-- A clang compression row with throughput 5 MB/s. -/
def c7clangRow : ReportRecord :=
  { compiler := "clang", test := "compression", iteration := 1, input_size := 100,
    output_size := 50, elapsed_seconds := 2, throughput_mbps := 5,
    compression_ratio := 1 }

/-- A result set in which both compilers are present but every gcc sample
has throughput 0: the denominator's mean throughput is 0. -/
def c7results : List ReportRecord := [c7gccRow, c7clangRow]

/-- The statistics computed for gcc on `c7results` (unevaluated field
expressions, definitionally equal to what `calculate_statistics` builds). -/
def c7gccStats : ReportStats :=
  { count := 1, throughput_mean := listMean [0], throughput_min := listMin [0],
    throughput_max := listMax [0], elapsed_mean := listMean [2],
    compression_ratio_mean := some (listMean [1]) }

/-- The statistics computed for clang on `c7results`. -/
def c7clangStats : ReportStats :=
  { count := 1, throughput_mean := listMean [5], throughput_min := listMin [5],
    throughput_max := listMax [5], elapsed_mean := listMean [2],
    compression_ratio_mean := some (listMean [1]) }

/-- C7 counterexample: with both summaries present but the gcc (denominator)
mean throughput equal to 0, the comparison still computes a value
(`comparisonSpeedup ≠ none`) — the guard `if gcc_comp and clang_comp:`
checks only presence, so the division is performed with a zero denominator
(in the Python source this raises `ZeroDivisionError` rather than yielding
"undefined"). -/
theorem c7_counterexample :
    (calculate_statistics c7results "gcc" "compression").map ReportStats.throughput_mean
      = some 0 ∧
    comparisonSpeedup c7results ≠ none := by
  have hg : calculate_statistics c7results "gcc" "compression" = some c7gccStats := rfl
  have hc : calculate_statistics c7results "clang" "compression" = some c7clangStats := rfl
  constructor
  · rw [hg]
    simp [c7gccStats, listMean]
  · unfold comparisonSpeedup
    rw [hg, hc]
    simp

/-- C7 (amended): the cross-tool speedup comparison is guarded only against
absent summaries: it yields no value iff the gcc or the clang compression
summary is absent; whenever both are present it performs the division of the
mean throughputs unconditionally, even when the denominator's mean is zero. -/
theorem c7_speedup_guard_amended (results : List ReportRecord) :
    (comparisonSpeedup results = none ↔
      (calculate_statistics results "gcc" "compression" = none ∨
       calculate_statistics results "clang" "compression" = none)) ∧
    (∀ g c, calculate_statistics results "gcc" "compression" = some g →
      calculate_statistics results "clang" "compression" = some c →
      comparisonSpeedup results = some (c.throughput_mean / g.throughput_mean)) := by
  unfold comparisonSpeedup
  rcases hg : calculate_statistics results "gcc" "compression" with _ | g <;>
    rcases hc : calculate_statistics results "clang" "compression" with _ | c <;>
    simp

/-- Witness for C7 (amended) at the concrete result set: both summaries are
present, so the division is performed. -/
theorem c7_witness :
    comparisonSpeedup c7results
      = some (c7clangStats.throughput_mean / c7gccStats.throughput_mean) :=
  (c7_speedup_guard_amended c7results).2 c7gccStats c7clangStats rfl rfl

/-- A tool whose id sorts first but whose display name sorts last. -/
def zetaCfg : ToolConfig :=
  { name := "Zeta", compress := "za -c {input} > {output}",
    decompress := "za -d {output} > {decompressed}", extension := ".za",
    category := "general", description := "" }

/-- A tool whose id sorts last but whose display name sorts first. -/
def alphaCfg : ToolConfig :=
  { name := "Alpha", compress := "al -c {input} > {output}",
    decompress := "al -d {output} > {decompressed}", extension := ".al",
    category := "general", description := "" }

/-- Registry in which tool-id order and display-name order disagree. -/
def c8reg : List (String × ToolConfig) := [("atool", zetaCfg), ("btool", alphaCfg)]

/-- Successful compress result for tool id `atool` (display name "Zeta"). -/
def c8rA : RunResult :=
  { tool := "atool", operation := "compress", input_size := 10, output_size := 5,
    elapsed_seconds := 1, threads := 1, success := true, error := none }

/-- Successful compress result for tool id `btool` (display name "Alpha"). -/
def c8rB : RunResult :=
  { tool := "btool", operation := "compress", input_size := 10, output_size := 5,
    elapsed_seconds := 1, threads := 1, success := true, error := none }

/-- C8 counterexample: `BenchmarkRunner.generate_report` sorts rows by tool
**id**, not by the displayed tool name, so the emitted `(display name,
threads)` pairs can descend: with ids `atool < btool` but names
`Zeta > Alpha` the table shows "Zeta" before "Alpha". -/
theorem c8_counterexample :
    reportRowDisplay c8reg [c8rA, c8rB] = [("Zeta", 1), ("Alpha", 1)] ∧
    ¬ List.Chain' (fun a b : String × Nat => keyLe a b = true)
        (reportRowDisplay c8reg [c8rA, c8rB]) := by
  have he : reportRowDisplay c8reg [c8rA, c8rB] = [("Zeta", 1), ("Alpha", 1)] := by decide
  refine ⟨he, fun h => ?_⟩
  rw [he] at h
  exact absurd (List.chain'_cons.mp h).1 (by decide)

/-- C8 (amended): the rows of `BenchmarkRunner.generate_report` are emitted
in nondecreasing `(tool id, thread count)` order (the sort key is the tool
id, not the display name — see the counterexample), and the rows of
`CompilerBenchmark.generate_report` are emitted in nondecreasing
`(compiler name, thread count)` order, where the compiler name is also the
displayed name, as the claim states. -/
theorem c8_rows_sorted_amended (results : List RunResult)
    (cresults : List CompilerBenchmarkResult) :
    List.Chain' (fun a b => keyLe a b = true) (reportRowKeys results) ∧
    List.Chain' (fun x y => keyLe (x.compiler, x.threads) (y.compiler, y.threads) = true)
      (compilerCompressRows cresults) :=
  ⟨chain'_sortByKey id (compressKeys results),
   chain'_sortByKey (fun r => (r.compiler, r.threads))
     (cresults.filter fun r => r.operation == "compress" && r.success)⟩

/-- C9: exporting a suite to JSON and reparsing the `results` array
reproduces the result sequence exactly — every stored field of every
`RunResult` (tool, operation, input_size, output_size, elapsed_seconds,
threads, success, error) survives the round trip. -/
theorem c9_json_roundtrip (tools : List (String × ToolConfig)) (suite : BenchmarkSuite) :
    parseResults (export_json tools suite) = some suite.results := by
  have hg : (export_json tools suite).getField "results"
      = some (.arr (suite.results.map runResultToJson)) := by
    simp [export_json, Json.getField, List.lookup]
  unfold parseResults
  rw [hg]
  exact parseResultList_map suite.results
